import Mathlib

/-!
Shallow embedding of the soundboard audio file registry
(`AudioFileService`, `src/utils/index.ts`, `AudioController`) in Lean 4.

Conventions of the embedding:
* JS strings are Lean `String`s manipulated through their `List Char` data
  (all operations in the source act on ASCII filenames and headers).
* JS numbers standing for byte counts and millisecond timestamps are `Nat`;
  quantities that the source allows to go negative (the computed range
  chunk size) are `Int`.
* `Date.now()` is passed in explicitly as a `now : Nat` argument.
* Asynchronous filesystem calls (`fs.readdir`, `fs.stat`) are passed in as
  an explicit environment (`DirEnv`); a rejected promise is `Except.error`.
* A JS `Map` is an insertion-ordered association list (`Catalog`):
  `Map.set` replaces in place when the key exists and appends otherwise,
  which is exactly what `mapSet` below does.
-/

namespace Soundboard

/-! ### Character and string helpers (ASCII fragments of the JS semantics) -/

/-- Characters the JS regex `\s` matches in the inputs that occur here
(the source only ever sees ASCII whitespace in filenames). -/
def isWsChar (c : Char) : Bool :=
  c == ' ' || c == '\t' || c == '\n' || c == '\r'

/-- ASCII lower-casing of a string, the fragment of
`String.prototype.toLowerCase` exercised by extensions and filenames. -/
def toLowerStr (s : String) : String :=
  String.mk (s.data.map Char.toLower)

/-- `slice(1)` on a JS string (drop the first character). -/
def dropFirst (s : String) : String :=
  String.mk (s.data.drop 1)

/-- Index of the last '.' in a character list, if any. -/
def lastDotIdx : List Char → Option Nat
  | [] => none
  | c :: cs =>
    match lastDotIdx cs with
    | some i => some (i + 1)
    | none => if c = '.' then some 0 else none

/-- Model of Node.js `path.extname` restricted to plain entry names (no
path separator), which is how the service uses it: the suffix of the name
from its last '.' on; empty when there is no '.', when the only '.' is the
leading character, or for the special name "..". -/
def extname (b : String) : String :=
  if b = ".." then ""
  else
    match lastDotIdx b.data with
    | none => ""
    | some 0 => ""
    | some i => String.mk (b.data.drop i)

/-- Model of Node.js `path.basename` for the slash-separated file paths the
watcher hands to `handleFileSystemEvent` (no trailing separators occur). -/
def basename (p : String) : String :=
  String.mk (p.data.foldl (fun acc c => if c = '/' then [] else acc ++ [c]) [])

/-- Model of Node.js `path.join(dir, filename)` for a directory path and a
plain entry name, the only shape the service joins. -/
def pathJoin (dir filename : String) : String :=
  dir ++ "/" ++ filename

/-! ### `src/utils/index.ts` -/

/-- `isSupportedAudioFormat(extension)`: true iff the lower-cased extension
is in the fixed list `['wav', 'mp3', 'ogg']`. -/
def isSupportedAudioFormat (extension : String) : Bool :=
  ["wav", "mp3", "ogg"].contains (toLowerStr extension)

/-- `'x'.replace('.', '')` — JS `replace` with a string pattern removes only
the first occurrence. -/
def removeFirstDot : List Char → List Char
  | [] => []
  | c :: cs => if c = '.' then cs else c :: removeFirstDot cs

/-- `getMimeType(extension)`: closed map over the supported formats with a
generic binary fallback. -/
def getMimeType (extension : String) : String :=
  let normalizedExt := String.mk (removeFirstDot (toLowerStr extension).data)
  if normalizedExt = "wav" then "audio/wav"
  else if normalizedExt = "mp3" then "audio/mpeg"
  else if normalizedExt = "ogg" then "audio/ogg"
  else "application/octet-stream"

/-- The character class `[a-zA-Z0-9.-]` of `generateAudioFileId`. -/
def isIdAllowedChar (c : Char) : Bool :=
  c.isAlpha || c.isDigit || c == '.' || c == '-'

/-- `generateAudioFileId(filename)`: the filename with every character
outside `[a-zA-Z0-9.-]` replaced by '_', then `"_" + Date.now()`.
`Date.now()` is the explicit `now` argument. -/
def generateAudioFileId (filename : String) (now : Nat) : String :=
  let sanitized := String.mk (filename.data.map fun c => if isIdAllowedChar c then c else '_')
  sanitized ++ "_" ++ toString now

/-- Collapse runs of spaces to a single space (the effect of the JS
`replace(/\s+/g, ' ')` once every whitespace character has been mapped to
a space). -/
def squeezeSpaces : List Char → List Char
  | [] => []
  | [c] => [c]
  | c :: c' :: cs =>
    if c = ' ' ∧ c' = ' ' then squeezeSpaces (c' :: cs)
    else c :: squeezeSpaces (c' :: cs)

/-- JS `trim()` on a character list. -/
def trimWs (l : List Char) : List Char :=
  ((l.dropWhile isWsChar).reverse.dropWhile isWsChar).reverse

/-- JS `split(' ')` on a character list (empty fields are kept). -/
def splitSp : List Char → List (List Char)
  | [] => [[]]
  | c :: cs =>
    let r := splitSp cs
    if c = ' ' then [] :: r
    else
      match r with
      | w :: ws => (c :: w) :: ws
      | [] => [[c]]

/-- `word.charAt(0).toUpperCase() + word.slice(1).toLowerCase()`. -/
def capitalizeWord : List Char → List Char
  | [] => []
  | c :: cs => c.toUpper :: cs.map Char.toLower

/-- JS `join(' ')`. -/
def joinSp : List (List Char) → List Char
  | [] => []
  | [w] => w
  | w :: ws => w ++ ' ' :: joinSp ws

/-- `sanitizeDisplayName(filename)`: `path.parse(filename).name` (the name
without its extension), separators `[_-]` to spaces, whitespace runs
collapsed, trimmed, and each space-separated word capitalized. -/
def sanitizeDisplayName (filename : String) : String :=
  let ext := extname filename
  let nameWithoutExt := filename.data.take (filename.data.length - ext.data.length)
  let step1 := nameWithoutExt.map fun c => if c = '_' ∨ c = '-' then ' ' else c
  let step2 := squeezeSpaces (step1.map fun c => if isWsChar c then ' ' else c)
  let step3 := trimWs step2
  String.mk (joinSp ((splitSp step3).map capitalizeWord))

/-- `validateFileSize(size, maxSize)`: `size > 0 && size <= maxSize`. -/
def validateFileSize (size maxSize : Nat) : Bool :=
  decide (size > 0) && decide (size ≤ maxSize)

/-! ### `encodeURIComponent` (used for the entry's URL) -/

/-- Characters `encodeURIComponent` leaves unescaped:
`A-Z a-z 0-9 - _ . ! ~ * ' ( )`. -/
def isUriUnreserved (c : Char) : Bool :=
  c.isAlpha || c.isDigit ||
    [ '-', '_', '.', '!', '~', '*', Char.ofNat 39, '(', ')' ].contains c

/-- UTF-8 bytes of a code point (as `Nat`s). -/
def utf8Bytes (c : Char) : List Nat :=
  let n := c.toNat
  if n < 0x80 then [n]
  else if n < 0x800 then [0xC0 + n / 64, 0x80 + n % 64]
  else if n < 0x10000 then [0xE0 + n / 4096, 0x80 + n / 64 % 64, 0x80 + n % 64]
  else [0xF0 + n / 262144, 0x80 + n / 4096 % 64, 0x80 + n / 64 % 64, 0x80 + n % 64]

/-- Upper-case hex digit. -/
def hexDigit (n : Nat) : Char :=
  if n < 10 then Char.ofNat ('0'.toNat + n) else Char.ofNat ('A'.toNat + n - 10)

/-- `%XX` escape of one byte. -/
def percentByte (b : Nat) : List Char :=
  ['%', hexDigit (b / 16), hexDigit (b % 16)]

/-- JS `encodeURIComponent`. -/
def encodeURIComponent (s : String) : String :=
  String.mk (s.data.flatMap fun c =>
    if isUriUnreserved c then [c] else (utf8Bytes c).flatMap percentByte)

/-! ### Data model (`src/models`) -/

/-- Result of `fs.stat` on one entry: the fields the service reads. -/
structure Stats where
  isFile : Bool
  size : Nat
  birthtime : Nat
  mtime : Nat
deriving Repr, DecidableEq

/-- `AudioFile` metadata record (`extension` is kept as the string the cast
in the source produces; timestamps are milliseconds). -/
structure AudioFile where
  id : String
  filename : String
  displayName : String
  extension : String
  size : Nat
  path : String
  url : String
  mimeType : String
  createdAt : Nat
  modifiedAt : Nat
deriving Repr, DecidableEq

/-- The three chokidar events the service handles. -/
inductive FileSystemEvent where
  | add
  | change
  | unlink
deriving Repr, DecidableEq

/-! ### The JS `Map<string, AudioFile>` (`this.audioFiles`) -/

/-- Insertion-ordered association list modelling the JS `Map`. -/
abbrev Catalog := List (String × AudioFile)

/-- `Map.set`: replace in place when the key is present, append otherwise. -/
def mapSet : Catalog → String → AudioFile → Catalog
  | [], k, v => [(k, v)]
  | (k', v') :: rest, k, v =>
    if k' = k then (k, v) :: rest else (k', v') :: mapSet rest k v

/-- `Map.delete` by key (keys are unique by `mapSet`'s construction). -/
def mapDeleteKey : Catalog → String → Catalog
  | [], _ => []
  | (k', v') :: rest, k =>
    if k' = k then rest else (k', v') :: mapDeleteKey rest k

/-- `Array.from(map.values())` — values in insertion order. -/
def mapValues (m : Catalog) : List AudioFile :=
  m.map Prod.snd

/-- `Map.get`. -/
def mapGet : Catalog → String → Option AudioFile
  | [], _ => none
  | (k', v') :: rest, k => if k' = k then some v' else mapGet rest k

/-! ### `AudioFileService` (src/unnamed/part_003) -/

/-- Mutable state of one `AudioFileService` instance: the catalog map, the
chokidar watcher handle (`some`/`none` for the `FSWatcher | null` field,
with `Unit` standing for the handle), and the emitter's listener count. -/
structure ServiceState where
  audioFiles : Catalog
  fileWatcher : Option Unit
  listenerCount : Nat
deriving Repr, DecidableEq

/-- `getAllAudioFiles()`. -/
def getAllAudioFiles (s : ServiceState) : List AudioFile :=
  mapValues s.audioFiles

/-- `getAudioFileById(id)`. -/
def getAudioFileById (s : ServiceState) (id : String) : Option AudioFile :=
  mapGet s.audioFiles id

/-- `getAudioFileCount()`. -/
def getAudioFileCount (s : ServiceState) : Nat :=
  s.audioFiles.length

/-- `cleanup()`: close and null the watcher if present, clear the map,
remove all listeners. -/
def cleanup (s : ServiceState) : ServiceState :=
  let s1 := if s.fileWatcher.isSome then { s with fileWatcher := none } else s
  let s2 := { s1 with audioFiles := [] }
  { s2 with listenerCount := 0 }

/-- `isSupportedAudioFile(filename)`:
`path.extname(filename).toLowerCase().slice(1)` checked by the validator. -/
def isSupportedAudioFile (filename : String) : Bool :=
  isSupportedAudioFormat (dropFirst (toLowerStr (extname filename)))

/-- `createAudioFileMetadata(filename)`. The `fs.stat` outcome and the value
of `Date.now()` are explicit arguments; `appConfig.maxFileSize` is the
`maxFileSize` argument. Every failure path of the source (stat rejection,
non-regular file, invalid size) is caught or returned as `null`, i.e.
`none`; the promise itself never rejects. -/
def createAudioFileMetadata (audioDirectory : String) (maxFileSize : Nat)
    (filename : String) (statResult : Except String Stats) (now : Nat) :
    Option AudioFile :=
  match statResult with
  | Except.error _ => none
  | Except.ok stats =>
    if !stats.isFile then none
    else if !validateFileSize stats.size maxFileSize then none
    else
      let filePath := pathJoin audioDirectory filename
      let extension := dropFirst (toLowerStr (extname filename))
      let id := generateAudioFileId filename now
      let displayName := sanitizeDisplayName filename
      some
        { id := id
          filename := filename
          displayName := displayName
          extension := extension
          size := stats.size
          path := filePath
          url := "/api/audio/" ++ encodeURIComponent filename
          mimeType := getMimeType extension
          createdAt := stats.birthtime
          modifiedAt := stats.mtime }

/-- The filesystem environment a scan runs against: the `fs.readdir`
outcome, the `fs.stat` outcome per filename, and the value `Date.now()`
returns while that filename's metadata is built. -/
structure DirEnv where
  listing : Except String (List String)
  stat : String → Except String Stats
  now : String → Nat

/-- The body of the `forEach` over `Promise.allSettled`'s results: a
fulfilled non-null value is `set` into the map, anything else is only
logged. (The builder catches all its errors, so every promise fulfills and
the `rejected` branch of the source is unreachable.) -/
def scanStep (c : Catalog) (r : Option AudioFile) : Catalog :=
  match r with
  | some v => mapSet c v.id v
  | none => c

/-- `scanAudioFiles()`: list the directory (a listing failure is rethrown
as "Failed to scan audio directory: ..."), keep the supported filenames,
build each one's metadata, and `set` every successful build into the
current map (which is NOT cleared by the scan itself). -/
def scanAudioFiles (audioDirectory : String) (maxFileSize : Nat)
    (env : DirEnv) (catalog : Catalog) : Except String Catalog :=
  match env.listing with
  | Except.error e => Except.error ("Failed to scan audio directory: " ++ e)
  | Except.ok files =>
    let supported := files.filter isSupportedAudioFile
    let results := supported.map fun f =>
      createAudioFileMetadata audioDirectory maxFileSize f (env.stat f) (env.now f)
    Except.ok (results.foldl scanStep catalog)

/-- The successful builds of a scan, in directory-listing order. -/
def scanSuccesses (audioDirectory : String) (maxFileSize : Nat)
    (files : List String) (stat : String → Except String Stats)
    (now : String → Nat) : List AudioFile :=
  (files.filter isSupportedAudioFile).filterMap fun f =>
    createAudioFileMetadata audioDirectory maxFileSize f (stat f) (now f)

/-- `refresh()`: `this.audioFiles.clear()` then `await this.scanAudioFiles()`
(the scan repopulates the just-cleared map). -/
def refresh (audioDirectory : String) (maxFileSize : Nat) (env : DirEnv)
    (s : ServiceState) : Except String ServiceState :=
  (scanAudioFiles audioDirectory maxFileSize env []).map
    fun c => { s with audioFiles := c }

/-- The catalog states a concurrent `list()` reader can observe while
`refresh()` runs, one per region between suspension points of the source:
before the call (the pre-refresh catalog); after the synchronous
`this.audioFiles.clear()` and throughout the awaited `fs.readdir` /
`Promise.allSettled` inside `scanAudioFiles` (the empty map — the
`forEach` that repopulates it is synchronous, so no partially repopulated
state is observable, but the cleared one is); and after the scan commits
(the new catalog, which stays empty if the listing failed and the scan
threw). -/
def refreshCatalogTrace (audioDirectory : String) (maxFileSize : Nat)
    (env : DirEnv) (catalog : Catalog) : List Catalog :=
  match scanAudioFiles audioDirectory maxFileSize env [] with
  | Except.ok c => [catalog, [], c]
  | Except.error _ => [catalog, [], []]

/-- `handleFileSystemEvent(event, filePath)`: ignore unsupported names;
`add`/`change` build metadata and `set` it under its (fresh) id;
`unlink` finds the first tracked entry with the filename and deletes its
id. The `fs.stat` outcome and `Date.now()` of the build are explicit
arguments. -/
def handleFileSystemEvent (audioDirectory : String) (maxFileSize : Nat)
    (event : FileSystemEvent) (filePath : String)
    (statResult : Except String Stats) (now : Nat)
    (s : ServiceState) : ServiceState :=
  let filename := basename filePath
  if !isSupportedAudioFile filename then s
  else
    match event with
    | FileSystemEvent.add | FileSystemEvent.change =>
      match createAudioFileMetadata audioDirectory maxFileSize filename statResult now with
      | some audioFile =>
        { s with audioFiles := mapSet s.audioFiles audioFile.id audioFile }
      | none => s
    | FileSystemEvent.unlink =>
      match (mapValues s.audioFiles).find? (fun f => f.filename == filename) with
      | some fileToRemove =>
        { s with audioFiles := mapDeleteKey s.audioFiles fileToRemove.id }
      | none => s

/-! ### `AudioController.handleRangeRequest` (dist/controllers) -/

/-- The response fields the range handler sets: the HTTP status and, on the
206 path, the `Content-Range` and `Content-Length` header values. -/
structure RangeResponse where
  status : Nat
  contentRange : Option String
  contentLength : Option String
deriving Repr, DecidableEq

/-- `takeWhile isDigit / dropWhile isDigit` pair used by the regex model. -/
def spanDigits (cs : List Char) : List Char × List Char :=
  (cs.takeWhile Char.isDigit, cs.dropWhile Char.isDigit)

/-- Attempt of the regex `/bytes=(\d+)-(\d*)/` at one position: the literal
`bytes=`, then a maximal non-empty digit run, then '-', then a maximal
(possibly empty) digit run. -/
def matchBytesAt (cs : List Char) : Option (List Char × List Char) :=
  match cs with
  | 'b' :: 'y' :: 't' :: 'e' :: 's' :: '=' :: rest =>
    let p := spanDigits rest
    if p.1.isEmpty then none
    else
      match p.2 with
      | '-' :: r2 => some (p.1, (spanDigits r2).1)
      | _ => none
  | _ => none

/-- Leftmost match of the unanchored regex search `range.match(...)`. -/
def searchBytes : List Char → Option (List Char × List Char)
  | [] => none
  | c :: cs =>
    match matchBytesAt (c :: cs) with
    | some m => some m
    | none => searchBytes cs

/-- `parseInt` on an all-digit capture group (its exact decimal value; the
floating-point rounding JS applies beyond 2^53 is not modelled). -/
def parseDigits (ds : List Char) : Nat :=
  ds.foldl (fun acc c => acc * 10 + (c.toNat - '0'.toNat)) 0

/-- The regex match plus `parseInt` of the two groups: `none` when the
header has no match (the 416 "malformed" path), otherwise the start and
the optional end (the second group may be empty). -/
def parseRangeHeader (range : String) : Option (Nat × Option Nat) :=
  (searchBytes range.data).map fun m =>
    (parseDigits m.1, if m.2.isEmpty then none else some (parseDigits m.2))

/-- `end` after its default: the parsed end, or `audioFile.size - 1` when
the second group was empty (as a JS number, hence `Int`). -/
def rangeEnd (size : Nat) (endOpt : Option Nat) : Int :=
  match endOpt with
  | some e => (e : Int)
  | none => (size : Int) - 1

/-- `handleRangeRequest(audioFile, range, res)` reduced to the response it
produces for a file of `size` bytes: 416 with no extra headers when the
regex does not match or a bound is past the end of file, otherwise 206
with `Content-Range: bytes start-end/size` and `Content-Length` equal to
`end - start + 1`. -/
def handleRangeRequest (size : Nat) (range : String) : RangeResponse :=
  match parseRangeHeader range with
  | none => { status := 416, contentRange := none, contentLength := none }
  | some (start, endOpt) =>
    let endPos := rangeEnd size endOpt
    if (start : Int) ≥ (size : Int) ∨ endPos ≥ (size : Int) then
      { status := 416, contentRange := none, contentLength := none }
    else
      let chunkSize : Int := endPos - (start : Int) + 1
      { status := 206
        contentRange := some
          ("bytes " ++ toString start ++ "-" ++ toString endPos ++ "/" ++ toString size)
        contentLength := some (toString chunkSize) }

/-! ### Helper lemmas -/

instance instDecEqExcept {ε α : Type} [DecidableEq ε] [DecidableEq α] :
    DecidableEq (Except ε α)
  | Except.ok x, Except.ok y =>
    if h : x = y then Decidable.isTrue (by rw [h])
    else Decidable.isFalse (fun hh => h (Except.ok.inj hh))
  | Except.ok _, Except.error _ => Decidable.isFalse (fun hh => Except.noConfusion hh)
  | Except.error _, Except.ok _ => Decidable.isFalse (fun hh => Except.noConfusion hh)
  | Except.error d, Except.error e =>
    if h : d = e then Decidable.isTrue (by rw [h])
    else Decidable.isFalse (fun hh => h (Except.error.inj hh))

lemma validateFileSize_iff (size maxSize : Nat) :
    validateFileSize size maxSize = true ↔ 0 < size ∧ size ≤ maxSize := by
  simp [validateFileSize]

lemma mapValues_cons (k : String) (v : AudioFile) (rest : Catalog) :
    mapValues ((k, v) :: rest) = v :: mapValues rest := rfl

lemma mem_values_mapSet {c : Catalog} {k : String} {v x : AudioFile}
    (h : x ∈ mapValues (mapSet c k v)) : x ∈ mapValues c ∨ x = v := by
  induction c with
  | nil =>
    right
    simpa [mapSet, mapValues] using h
  | cons p rest ih =>
    obtain ⟨k', v'⟩ := p
    by_cases hk : k' = k
    · simp only [mapSet, if_pos hk, mapValues_cons, List.mem_cons] at h
      rcases h with h | h
      · right; exact h
      · left; simp [mapValues_cons, h]
    · simp only [mapSet, if_neg hk, mapValues_cons, List.mem_cons] at h
      rcases h with h | h
      · left; simp [mapValues_cons, h]
      · rcases ih h with h' | h'
        · left; simp [mapValues_cons, List.mem_cons, h']
        · right; exact h'

lemma mem_values_fold (results : List (Option AudioFile)) :
    ∀ (catalog : Catalog) (x : AudioFile),
      x ∈ mapValues (results.foldl scanStep catalog) →
      x ∈ mapValues catalog ∨ some x ∈ results := by
  induction results with
  | nil =>
    intro c x h
    left
    simpa using h
  | cons r rest ih =>
    intro c x h
    rw [List.foldl_cons] at h
    rcases ih (scanStep c r) x h with h' | h'
    · cases r with
      | none =>
        left
        simpa [scanStep] using h'
      | some v =>
        rcases mem_values_mapSet (show x ∈ mapValues (mapSet c v.id v) from h') with h'' | h''
        · left; exact h''
        · right; simp [h'']
    · right
      simp [h']

lemma build_filename {dir : String} {maxFileSize : Nat} {f : String}
    {st : Except String Stats} {now : Nat} {v : AudioFile}
    (h : createAudioFileMetadata dir maxFileSize f st now = some v) :
    v.filename = f := by
  cases st with
  | error e => simp [createAudioFileMetadata] at h
  | ok s =>
    by_cases h1 : s.isFile <;> by_cases h2 : validateFileSize s.size maxFileSize <;>
      simp [createAudioFileMetadata, h1, h2] at h
    rw [← h]

lemma mapSet_not_mem {c : Catalog} {k : String} {v : AudioFile}
    (h : k ∉ c.map Prod.fst) : mapSet c k v = c ++ [(k, v)] := by
  induction c with
  | nil => rfl
  | cons p rest ih =>
    obtain ⟨k', v'⟩ := p
    simp only [List.map_cons, List.mem_cons] at h
    push_neg at h
    have hne : k' ≠ k := Ne.symm h.1
    simp only [mapSet, if_neg hne, List.cons_append]
    rw [ih h.2]

lemma fold_values_nodup (results : List (Option AudioFile)) :
    ∀ (catalog : Catalog),
      ((results.filterMap id).map AudioFile.id).Nodup →
      (∀ v ∈ results.filterMap id, v.id ∉ catalog.map Prod.fst) →
      mapValues (results.foldl scanStep catalog) =
        mapValues catalog ++ results.filterMap id := by
  induction results with
  | nil =>
    intro c _ _
    simp
  | cons r rest ih =>
    intro c hnd hfresh
    cases r with
    | none =>
      rw [List.foldl_cons]
      show mapValues (rest.foldl scanStep c) = _
      rw [ih c (by simpa using hnd) (by simpa using hfresh)]
      simp
    | some v =>
      have hmem : v ∈ (some v :: rest).filterMap id := by simp
      have hfv : v.id ∉ c.map Prod.fst := hfresh v hmem
      have hnd' := hnd
      simp only [List.filterMap_cons, id] at hnd'
      rw [List.map_cons, List.nodup_cons] at hnd'
      rw [List.foldl_cons]
      show mapValues (rest.foldl scanStep (mapSet c v.id v)) = _
      rw [mapSet_not_mem hfv]
      rw [ih (c ++ [(v.id, v)]) hnd'.2 ?_]
      · simp [mapValues, List.filterMap_cons]
      · intro w hw
        simp only [List.map_append, List.map_cons, List.map_nil, List.mem_append,
          List.mem_singleton]
        push_neg
        refine ⟨hfresh w (by simp [List.filterMap_cons, hw]), fun heq => ?_⟩
        exact hnd'.1 (heq ▸ List.mem_map_of_mem AudioFile.id hw)

/-! ### Claim theorems -/

/-- C1: the refresh claim fails on the code. `refresh()` runs
`this.audioFiles.clear()` synchronously and only then awaits the rescan, so
a `list()` reader at any suspension point inside the rescan observes the
empty catalog — neither the complete pre-refresh catalog (here
`[kick.wav]`, exactly the entry the initial scan of `kick.wav` at time 1
builds) nor the complete post-refresh catalog (`[snare.wav]`). -/
theorem refresh_observable_empty_catalog :
    (refreshCatalogTrace "d" 1000000
        ⟨Except.ok ["snare.wav"], fun _ => Except.ok ⟨true, 20, 0, 0⟩, fun _ => 2⟩
        [("kick.wav_1",
          ⟨"kick.wav_1", "kick.wav", "Kick", "wav", 10, "d/kick.wav",
            "/api/audio/kick.wav", "audio/wav", 0, 0⟩)]).map
      (fun c => (mapValues c).map AudioFile.filename) =
    [["kick.wav"], [], ["snare.wav"]] := by
  decide

/-- C2: the in-place-update claim fails on the code. Starting from the
catalog the scan of `a.wav` at time 1 builds (one entry under id
"a.wav_1"), a watcher `change` event for `a.wav` at time 2 builds a fresh
id "a.wav_2" and `Map.set`s under it, so the old entry stays: the catalog
ends with two live entries sharing the filename `a.wav` and the count
grows from 1 to 2. -/
theorem change_event_duplicates_filename :
    (scanAudioFiles "d" 1000000
        ⟨Except.ok ["a.wav"], fun _ => Except.ok ⟨true, 10, 0, 0⟩, fun _ => 1⟩ []).map
      (fun c =>
        let s1 := handleFileSystemEvent "d" 1000000 FileSystemEvent.change "d/a.wav"
          (Except.ok ⟨true, 12, 0, 0⟩) 2
          { audioFiles := c, fileWatcher := some (), listenerCount := 0 }
        ((mapValues s1.audioFiles).map AudioFile.filename, getAudioFileCount s1)) =
    Except.ok (["a.wav", "a.wav"], 2) := by
  decide

/-- C3 counterexample: the scan filters only on the extension, so the
hidden file `.foo.wav` (extname ".wav") is cataloged by a scan — the claim
that no entry is ever created from a hidden file is false. -/
theorem hidden_file_gets_catalog_entry :
    (scanAudioFiles "d" 1000000
        ⟨Except.ok [".foo.wav"], fun _ => Except.ok ⟨true, 100, 0, 0⟩, fun _ => 1⟩ []).map
      (fun c => (mapValues c).map AudioFile.filename) =
    Except.ok [".foo.wav"] := by
  decide

/-- C3 amended: no catalog entry is ever created for a file whose
extension (per `path.extname`) is unsupported — every entry a scan adds
passes `isSupportedAudioFile`, and the watcher handler ignores unsupported
names entirely; hidden files as such are not filtered (they are skipped
only when, like `.wav` or `.gitignore`, their name yields no supported
extension). -/
theorem catalog_entries_only_supported_extensions :
    (∀ (dir : String) (maxFileSize : Nat) (env : DirEnv) (catalog c : Catalog),
      scanAudioFiles dir maxFileSize env catalog = Except.ok c →
      ∀ x ∈ mapValues c,
        x ∈ mapValues catalog ∨ isSupportedAudioFile x.filename = true) ∧
    (∀ (dir : String) (maxFileSize : Nat) (event : FileSystemEvent)
        (filePath : String) (statResult : Except String Stats) (now : Nat)
        (s : ServiceState),
      isSupportedAudioFile (basename filePath) = false →
      handleFileSystemEvent dir maxFileSize event filePath statResult now s = s) := by
  constructor
  · intro dir maxFileSize env catalog c h x hx
    unfold scanAudioFiles at h
    cases hl : env.listing with
    | error e => rw [hl] at h; exact absurd h (by simp)
    | ok files =>
      rw [hl] at h
      rw [Except.ok.injEq] at h
      rw [← h] at hx
      rcases mem_values_fold _ _ _ hx with h' | h'
      · left; exact h'
      · right
        rcases List.mem_map.1 h' with ⟨f, hf, hbuild⟩
        rw [build_filename hbuild]
        exact (List.mem_filter.1 hf).2
  · intro dir maxFileSize event filePath statResult now s h
    unfold handleFileSystemEvent
    simp [h]

/-- C3 witness: the sole entry the scan of `a.flac`/`b.mp3` produces
satisfies the disjunction (it has a supported extension), and an `add`
event for `readme.txt` leaves the state untouched. -/
theorem catalog_entries_only_supported_extensions_witness :
    ((⟨"b.mp3_4", "b.mp3", "B", "mp3", 10, "d/b.mp3", "/api/audio/b.mp3",
        "audio/mpeg", 0, 0⟩ : AudioFile) ∈ mapValues ([] : Catalog) ∨
      isSupportedAudioFile
        (AudioFile.filename
          ⟨"b.mp3_4", "b.mp3", "B", "mp3", 10, "d/b.mp3", "/api/audio/b.mp3",
            "audio/mpeg", 0, 0⟩) = true) ∧
    handleFileSystemEvent "d" 100 FileSystemEvent.add "d/readme.txt"
        (Except.ok ⟨true, 5, 0, 0⟩) 1 ⟨[], none, 0⟩ = ⟨[], none, 0⟩ := by
  refine ⟨?_, ?_⟩
  · exact catalog_entries_only_supported_extensions.1 "d" 100
      ⟨Except.ok ["a.flac", "b.mp3"], fun _ => Except.ok ⟨true, 10, 0, 0⟩, fun _ => 4⟩
      []
      [("b.mp3_4",
        ⟨"b.mp3_4", "b.mp3", "B", "mp3", 10, "d/b.mp3", "/api/audio/b.mp3",
          "audio/mpeg", 0, 0⟩)]
      (by decide)
      ⟨"b.mp3_4", "b.mp3", "B", "mp3", 10, "d/b.mp3", "/api/audio/b.mp3",
        "audio/mpeg", 0, 0⟩
      (by decide)
  · exact catalog_entries_only_supported_extensions.2 "d" 100
      FileSystemEvent.add "d/readme.txt" (Except.ok ⟨true, 5, 0, 0⟩) 1
      ⟨[], none, 0⟩ (by decide)

/-- C4 counterexample: the id embeds `Date.now()`, so two builds of the
same filename at different milliseconds produce different ids — id
generation is not a function of the filename alone. -/
theorem id_differs_across_rescans :
    generateAudioFileId "a.wav" 1 ≠ generateAudioFileId "a.wav" 2 := by
  decide

/-- C4 amended: the id is a deterministic function of the pair (filename,
build timestamp): builds of one filename at the same `Date.now()` value
agree, while builds at different times can differ (as `a.wav` at times 1
and 2 shows). -/
theorem id_deterministic_in_filename_and_timestamp :
    (∀ (f : String) (t₁ t₂ : Nat), t₁ = t₂ →
      generateAudioFileId f t₁ = generateAudioFileId f t₂) ∧
    generateAudioFileId "kick.wav" 1 ≠ generateAudioFileId "kick.wav" 2 := by
  refine ⟨fun f t₁ t₂ h => by rw [h], by decide⟩

/-- C4 witness: the determinism half applied at `kick.wav`, time 9. -/
theorem id_deterministic_in_filename_and_timestamp_witness :
    generateAudioFileId "kick.wav" 9 = generateAudioFileId "kick.wav" 9 :=
  id_deterministic_in_filename_and_timestamp.1 "kick.wav" 9 9 rfl

/-- C5: size validation is the exact boundary check `0 < size ≤ maxSize` —
both for `validateFileSize` itself and for acceptance by the metadata
builder on a regular file (so exactly `maxFileSize` is accepted,
`maxFileSize + 1` and 0 are rejected). -/
theorem size_validation_exact_boundary :
    (∀ size maxSize : Nat,
      validateFileSize size maxSize = true ↔ 0 < size ∧ size ≤ maxSize) ∧
    (∀ (dir f : String) (maxFileSize : Nat) (st : Stats) (now : Nat),
      st.isFile = true →
      ((createAudioFileMetadata dir maxFileSize f (Except.ok st) now).isSome ↔
        0 < st.size ∧ st.size ≤ maxFileSize)) := by
  refine ⟨validateFileSize_iff, ?_⟩
  intro dir f maxFileSize st now h
  by_cases hv : validateFileSize st.size maxFileSize
  · simp [createAudioFileMetadata, h, hv, (validateFileSize_iff _ _).1 hv]
  · have : ¬(0 < st.size ∧ st.size ≤ maxFileSize) :=
      fun hc => hv ((validateFileSize_iff _ _).2 hc)
    simp [createAudioFileMetadata, h, hv, this]

/-- C5 witness: at the boundary itself — a 100-byte file against
`maxFileSize = 100` — both halves of the theorem, with the builder run on
a regular file. -/
theorem size_validation_exact_boundary_witness :
    (validateFileSize 100 100 = true ↔ 0 < 100 ∧ 100 ≤ 100) ∧
    ((createAudioFileMetadata "d" 100 "a.wav" (Except.ok ⟨true, 100, 0, 0⟩) 1).isSome ↔
      0 < 100 ∧ 100 ≤ 100) :=
  ⟨size_validation_exact_boundary.1 100 100,
   size_validation_exact_boundary.2 "d" "a.wav" 100 ⟨true, 100, 0, 0⟩ 1 rfl⟩

/-- C7 counterexample: a non-regular file and a 0-byte file produce the
very same builder result (`null`), so the caller cannot distinguish the
failure kinds from what is returned — failures are exactly the single
undifferentiated absent value the claim rules out. -/
theorem build_failure_kinds_indistinguishable :
    createAudioFileMetadata "d" 100 "a.wav" (Except.ok ⟨false, 10, 0, 0⟩) 1 =
      createAudioFileMetadata "d" 100 "a.wav" (Except.ok ⟨true, 0, 0, 0⟩) 1 ∧
    createAudioFileMetadata "d" 100 "a.wav" (Except.ok ⟨false, 10, 0, 0⟩) 1 = none := by
  exact ⟨by decide, by decide⟩

/-- C7 amended: every failure path of the metadata builder — stat
rejection, non-regular file, zero size, size over the limit — surfaces to
the caller as the same absent value `none`; the skip-silently /
log-and-skip distinction is made only by logging inside the builder, not
in the returned value. -/
theorem build_failures_all_return_none :
    ∀ (dir f : String) (maxFileSize : Nat) (st : Stats) (now : Nat),
      (∀ e : String,
        createAudioFileMetadata dir maxFileSize f (Except.error e) now = none) ∧
      (st.isFile = false →
        createAudioFileMetadata dir maxFileSize f (Except.ok st) now = none) ∧
      (st.size = 0 →
        createAudioFileMetadata dir maxFileSize f (Except.ok st) now = none) ∧
      (maxFileSize < st.size →
        createAudioFileMetadata dir maxFileSize f (Except.ok st) now = none) := by
  intro dir f maxFileSize st now
  refine ⟨fun e => rfl, fun h => by simp [createAudioFileMetadata, h], ?_, ?_⟩
  · intro h
    cases hf : st.isFile <;>
      simp [createAudioFileMetadata, hf, validateFileSize, h]
  · intro h
    cases hf : st.isFile <;>
      simp [createAudioFileMetadata, hf, validateFileSize, Nat.not_le.2 h]

/-- C7 witness: the four failure shapes at concrete inputs, each returning
`none`. -/
theorem build_failures_all_return_none_witness :
    createAudioFileMetadata "d" 100 "b.ogg" (Except.error "ENOENT") 5 = none ∧
    createAudioFileMetadata "d" 100 "b.ogg" (Except.ok ⟨false, 3, 0, 0⟩) 5 = none ∧
    createAudioFileMetadata "d" 100 "b.ogg" (Except.ok ⟨true, 0, 0, 0⟩) 5 = none ∧
    createAudioFileMetadata "d" 100 "b.ogg" (Except.ok ⟨true, 101, 0, 0⟩) 5 = none :=
  ⟨(build_failures_all_return_none "d" "b.ogg" 100 ⟨false, 3, 0, 0⟩ 5).1 "ENOENT",
   (build_failures_all_return_none "d" "b.ogg" 100 ⟨false, 3, 0, 0⟩ 5).2.1 rfl,
   (build_failures_all_return_none "d" "b.ogg" 100 ⟨true, 0, 0, 0⟩ 5).2.2.1 rfl,
   (build_failures_all_return_none "d" "b.ogg" 100 ⟨true, 101, 0, 0⟩ 5).2.2.2 (by decide)⟩

/-- C8: `cleanup()` is idempotent and clears all state: a second call is a
no-op on the result of the first, and after any cleanup the catalog reads
as empty (`getAllAudioFiles` is `[]`, `getAudioFileCount` is 0). -/
theorem cleanup_idempotent_and_clears_catalog :
    ∀ s : ServiceState,
      cleanup (cleanup s) = cleanup s ∧
      getAllAudioFiles (cleanup s) = [] ∧
      getAudioFileCount (cleanup s) = 0 := by
  intro s
  refine ⟨?_, rfl, rfl⟩
  cases hw : s.fileWatcher <;> simp [cleanup, hw]

/-- C10: id generation is not injective on filenames — `a b.wav` and
`a?b.wav` differ only in a character outside `[a-zA-Z0-9.-]` and sanitize
to the same id at equal timestamps, and a single scan of a directory
holding both (with equal `Date.now()` values) keys both entries to that
one id, silently retaining only the later one. -/
theorem id_collision_drops_catalog_entry :
    ("a b.wav" : String) ≠ "a?b.wav" ∧
    generateAudioFileId "a b.wav" 7 = generateAudioFileId "a?b.wav" 7 ∧
    (scanAudioFiles "d" 1000000
        ⟨Except.ok ["a b.wav", "a?b.wav"], fun _ => Except.ok ⟨true, 100, 0, 0⟩,
          fun _ => 7⟩ []).map
      (fun c => (mapValues c).map AudioFile.filename) =
    Except.ok ["a?b.wav"] := by
  exact ⟨by decide, by decide, by decide⟩

/-- C6 counterexample: two files that both build successfully (`x y.wav`
and `x_y.wav`, N = 2, M = 0) sanitize to the same id at equal timestamps;
the scan commits them under that one key and the catalog ends with a
single entry — fewer than the N the claim promises. -/
theorem scan_drops_colliding_success :
    (createAudioFileMetadata "d" 1000000 "x y.wav" (Except.ok ⟨true, 50, 0, 0⟩) 3).isSome
      = true ∧
    (createAudioFileMetadata "d" 1000000 "x_y.wav" (Except.ok ⟨true, 50, 0, 0⟩) 3).isSome
      = true ∧
    (scanAudioFiles "d" 1000000
        ⟨Except.ok ["x y.wav", "x_y.wav"], fun _ => Except.ok ⟨true, 50, 0, 0⟩,
          fun _ => 3⟩ []).map (fun c => c.length) =
      Except.ok 1 := by
  exact ⟨by decide, by decide, by decide⟩

/-- C6 amended: per-file failures never abort a scan — a scan fails
(propagates "Failed to scan audio directory") exactly when the directory
listing fails, and on a successful listing it commits precisely the
successful builds, in listing order, provided their ids are pairwise
distinct (id collisions among successes, as in the counterexample, are the
one way the catalog can end up smaller). -/
theorem scan_isolation_and_error_propagation :
    (∀ (dir : String) (maxFileSize : Nat) (e : String)
        (stat : String → Except String Stats) (now : String → Nat)
        (catalog : Catalog),
      scanAudioFiles dir maxFileSize ⟨Except.error e, stat, now⟩ catalog =
        Except.error ("Failed to scan audio directory: " ++ e)) ∧
    (∀ (dir : String) (maxFileSize : Nat) (files : List String)
        (stat : String → Except String Stats) (now : String → Nat),
      ((scanSuccesses dir maxFileSize files stat now).map AudioFile.id).Nodup →
      (scanAudioFiles dir maxFileSize ⟨Except.ok files, stat, now⟩ []).map mapValues =
        Except.ok (scanSuccesses dir maxFileSize files stat now)) := by
  constructor
  · intro dir maxFileSize e stat now catalog
    rfl
  · intro dir maxFileSize files stat now hnd
    have hres :
        (List.map
            (fun f => createAudioFileMetadata dir maxFileSize f (stat f) (now f))
            (files.filter isSupportedAudioFile)).filterMap id =
          scanSuccesses dir maxFileSize files stat now := by
      rw [List.filterMap_map]
      simp [scanSuccesses, Function.comp]
    show Except.ok (mapValues _) = _
    rw [fold_values_nodup _ [] (by rw [hres]; exact hnd) (by simp)]
    rw [hres]
    rfl

/-- C6 witness: a listing failure propagates, and a directory holding one
valid wav and one unsupported name scans to exactly its successful
builds. -/
theorem scan_isolation_and_error_propagation_witness :
    scanAudioFiles "w" 100
        ⟨Except.error "EACCES", fun _ => Except.error "x", fun _ => 0⟩ [] =
      Except.error ("Failed to scan audio directory: " ++ "EACCES") ∧
    (scanAudioFiles "w" 100
        ⟨Except.ok ["kick.wav", "readme.txt"], fun _ => Except.ok ⟨true, 10, 0, 0⟩,
          fun _ => 4⟩ []).map mapValues =
      Except.ok (scanSuccesses "w" 100 ["kick.wav", "readme.txt"]
        (fun _ => Except.ok ⟨true, 10, 0, 0⟩) (fun _ => 4)) :=
  ⟨scan_isolation_and_error_propagation.1 "w" 100 "EACCES"
      (fun _ => Except.error "x") (fun _ => 0) [],
   scan_isolation_and_error_propagation.2 "w" 100 ["kick.wav", "readme.txt"]
      (fun _ => Except.ok ⟨true, 10, 0, 0⟩) (fun _ => 4) (by decide)⟩

/-- C9: the range-request dichotomy. A header the regex does not match
yields 416; a parsed header with `start ≥ size` or (defaulted) `end ≥ size`
yields 416; a parsed in-bounds header with `start ≤ end` yields 206 with
`Content-Range: bytes start-end/size` and `Content-Length = end - start + 1`. -/
theorem range_request_status_dichotomy :
    ∀ (size : Nat) (range : String),
      (parseRangeHeader range = none → (handleRangeRequest size range).status = 416) ∧
      (∀ (start : Nat) (endOpt : Option Nat),
        parseRangeHeader range = some (start, endOpt) →
        (((start : Int) ≥ (size : Int) ∨ rangeEnd size endOpt ≥ (size : Int)) →
          (handleRangeRequest size range).status = 416) ∧
        ((start : Int) < (size : Int) → rangeEnd size endOpt < (size : Int) →
          (start : Int) ≤ rangeEnd size endOpt →
          handleRangeRequest size range =
            { status := 206
              contentRange := some ("bytes " ++ toString start ++ "-" ++
                toString (rangeEnd size endOpt) ++ "/" ++ toString size)
              contentLength :=
                some (toString (rangeEnd size endOpt - (start : Int) + 1)) })) := by
  intro size range
  constructor
  · intro h
    simp [handleRangeRequest, h]
  · intro start endOpt h
    constructor
    · intro hge
      have hge' : size ≤ start ∨ (size : Int) ≤ rangeEnd size endOpt := by
        rcases hge with hh | hh
        · left; exact_mod_cast hh
        · right; exact hh
      simp [handleRangeRequest, h, hge']
    · intro h1 h2 h3
      have hng : ¬((start : Int) ≥ (size : Int) ∨ rangeEnd size endOpt ≥ (size : Int)) := by
        push_neg
        exact ⟨h1, h2⟩
      simp [handleRangeRequest, h, hng]
      exact ⟨by exact_mod_cast h1, h2⟩

/-- C9 witness: the three branches at a 10-byte file — an unparseable
header, an out-of-bounds range, and the in-bounds range 2-5. -/
theorem range_request_status_dichotomy_witness :
    (handleRangeRequest 10 "nope").status = 416 ∧
    (handleRangeRequest 10 "bytes=12-20").status = 416 ∧
    handleRangeRequest 10 "bytes=2-5" =
      { status := 206, contentRange := some "bytes 2-5/10",
        contentLength := some "4" } := by
  refine ⟨(range_request_status_dichotomy 10 "nope").1 (by decide), ?_, ?_⟩
  · exact ((range_request_status_dichotomy 10 "bytes=12-20").2 12 (some 20)
      (by decide)).1 (by decide)
  · have h := ((range_request_status_dichotomy 10 "bytes=2-5").2 2 (some 5)
      (by decide)).2 (by decide) (by decide) (by decide)
    exact h.trans (by decide)

end Soundboard
